import Mathlib

/-!
Verification of the AVDP Climate-Smart Agriculture dashboard
(src/avdp_dashboard.py) against its natural-language specification.

The script's data-shaping core is embedded shallowly:

* numpy's sequential pseudo-random draws are modelled by an explicit
  stream of raw draws (a function from draw index to a rational in
  [0, 1)); np.random.randint lo hi consumes one raw draw u and yields
  lo + floor (u * (hi - lo)) in [lo, hi); np.random.uniform lo hi
  yields lo + u * (hi - lo) in [lo, hi);
* each pandas frame row is a structure whose fields carry the source's
  column names; a frame is the list of its rows in generation order;
* boolean-mask selection (isin / between / ==) is List.filter;
  pandas sum over a column is a List.sum of a projected list; pandas
  mean of an empty column is NaN, embedded as Option.none.
-/

namespace AVDP

/-- A pseudo-random source: an infinite stream of raw draws together with
the index of the next draw (numpy's global generator state). -/
structure Rng where
  stream : Nat → ℚ
  idx : Nat

/-- Consume one raw draw. -/
def Rng.next (r : Rng) : ℚ × Rng :=
  (r.stream r.idx, ⟨r.stream, r.idx + 1⟩)

/-- The raw draws are admissible: every raw draw lies in [0, 1). -/
def Rng.InRange (r : Rng) : Prop :=
  ∀ n, 0 ≤ r.stream n ∧ r.stream n < 1

/-- np.random.randint lo hi: a uniformly random integer in [lo, hi). -/
def randint (lo hi : ℤ) (r : Rng) : ℤ × Rng :=
  let (u, r') := r.next
  (lo + ⌊u * ((hi : ℚ) - (lo : ℚ))⌋, r')

/-- np.random.uniform lo hi: a uniformly random float in [lo, hi). -/
def uniform (lo hi : ℚ) (r : Rng) : ℚ × Rng :=
  let (u, r') := r.next
  (lo + u * (hi - lo), r')

/-- One row of the IVS rice frame (ivs_df). -/
structure IvsRecord where
  District : String
  Year : ℤ
  Hectares_Developed : ℤ
  Farmers_Count : ℤ
  Women_Farmers : ℤ
  Youth_Farmers : ℤ
  CSA_Adoption_Rate : ℚ
  Yield_Traditional : ℚ
  Yield_CSA : ℚ
  Income_Before : ℚ
  Income_After : ℚ
deriving DecidableEq

/-- One row of the tree-crops frame (tree_df). -/
structure TreeRecord where
  District : String
  Year : ℤ
  Cocoa_Seedlings : ℤ
  Oil_Palm_Seedlings : ℤ
  Survival_Rate_Year2 : ℚ
  Farmers_Trained : ℤ
  Income_Change : ℚ
deriving DecidableEq

/-- One row of the vegetable frame (veg_df). -/
structure VegRecord where
  District : String
  CSA_Technique : String
  Farmers_Supported : ℤ
  Onion_Yield_Increase : ℚ
  Pepper_Yield_Increase : ℚ
  Price_Premium : ℚ
  Women_Participation : ℚ
deriving DecidableEq

/-- The eight Sierra Leone districts of the script. -/
def districts : List String :=
  ["Western Area", "Bo", "Kenema", "Kailahun", "Kono", "Bombali", "Tonkolili", "Port Loko"]

/-- range(2020, 2025): the generated years. -/
def years : List ℤ := [2020, 2021, 2022, 2023, 2024]

/-- The five CSA techniques of the vegetable frame. -/
def csa_techniques : List String :=
  ["Raised Beds", "Mulching", "Drip Irrigation", "Composting", "Intercropping"]

/-- One IVS row: nine sequential draws, in the order the source dict
literal performs them. -/
def genIvsRecord (d : String) (y : ℤ) (r : Rng) : IvsRecord × Rng :=
  let (hect, r) := randint 50 200 r
  let (fc, r) := randint 100 500 r
  let (wf, r) := randint 40 200 r
  let (yf, r) := randint 20 100 r
  let (csa, r) := uniform (3/10) (9/10) r
  let (yt, r) := uniform 2 (7/2) r
  let (yc, r) := uniform (7/2) 6 r
  let (ib, r) := uniform 500 1200 r
  let (ia, r) := uniform 800 2000 r
  (⟨d, y, hect, fc, wf, yf, csa, yt, yc, ib, ia⟩, r)

/-- One tree-crops row: five sequential draws. -/
def genTreeRecord (d : String) (y : ℤ) (r : Rng) : TreeRecord × Rng :=
  let (cs, r) := randint 1000 5000 r
  let (os, r) := randint 500 3000 r
  let (sr, r) := uniform (7/10) (19/20) r
  let (ft, r) := randint 50 300 r
  let (ic, r) := uniform 200 800 r
  (⟨d, y, cs, os, sr, ft, ic⟩, r)

/-- One vegetable row: five sequential draws. -/
def genVegRecord (d : String) (t : String) (r : Rng) : VegRecord × Rng :=
  let (fs, r) := randint 20 150 r
  let (oy, r) := uniform (1/5) (4/5) r
  let (py, r) := uniform (3/20) (3/5) r
  let (pp, r) := uniform (1/10) (2/5) r
  let (wp, r) := uniform (3/5) (9/10) r
  (⟨d, t, fs, oy, py, pp, wp⟩, r)

/-- The inner loop over years for one district of the IVS frame. -/
def genIvsRows (d : String) : List ℤ → Rng → List IvsRecord × Rng
  | [], r => ([], r)
  | y :: ys, r =>
    let (row, r') := genIvsRecord d y r
    let (rest, r'') := genIvsRows d ys r'
    (row :: rest, r'')

/-- The outer loop over districts of the IVS frame. -/
def genIvsTable : List String → Rng → List IvsRecord × Rng
  | [], r => ([], r)
  | d :: ds, r =>
    let (rows, r') := genIvsRows d years r
    let (rest, r'') := genIvsTable ds r'
    (rows ++ rest, r'')

/-- The inner loop over years for one district of the tree frame. -/
def genTreeRows (d : String) : List ℤ → Rng → List TreeRecord × Rng
  | [], r => ([], r)
  | y :: ys, r =>
    let (row, r') := genTreeRecord d y r
    let (rest, r'') := genTreeRows d ys r'
    (row :: rest, r'')

/-- The outer loop over districts of the tree frame. -/
def genTreeTable : List String → Rng → List TreeRecord × Rng
  | [], r => ([], r)
  | d :: ds, r =>
    let (rows, r') := genTreeRows d years r
    let (rest, r'') := genTreeTable ds r'
    (rows ++ rest, r'')

/-- The inner loop over techniques for one district of the vegetable frame. -/
def genVegRows (d : String) : List String → Rng → List VegRecord × Rng
  | [], r => ([], r)
  | t :: ts, r =>
    let (row, r') := genVegRecord d t r
    let (rest, r'') := genVegRows d ts r'
    (row :: rest, r'')

/-- The outer loop over districts of the vegetable frame. -/
def genVegTable : List String → Rng → List VegRecord × Rng
  | [], r => ([], r)
  | d :: ds, r =>
    let (rows, r') := genVegRows d csa_techniques r
    let (rest, r'') := genVegTable ds r'
    (rows ++ rest, r'')

/-- generate_sample_data: the three frames, drawn sequentially from one
random stream (IVS first, then tree crops, then vegetables). -/
def generate_sample_data (r : Rng) :
    (List IvsRecord × List TreeRecord × List VegRecord) × Rng :=
  let p1 := genIvsTable districts r
  let p2 := genTreeTable districts p1.2
  let p3 := genVegTable districts p2.2
  ((p1.1, p2.1, p3.1), p3.2)

/-- The sidebar state: selected districts (multiselect), the year slider's
inclusive endpoints, the CSA practice selectbox and the gender/youth
selectbox. -/
structure FilterSelection where
  selected_districts : List String
  year_lo : ℤ
  year_hi : ℤ
  csa_filter : String
  gender_focus : String
deriving DecidableEq

/-- filtered_ivs: District isin selected AND Year between lo and hi
(pandas between is inclusive at both ends). -/
def filtered_ivs (ivs : List IvsRecord) (sel : FilterSelection) : List IvsRecord :=
  ivs.filter fun x =>
    decide (x.District ∈ sel.selected_districts ∧
      sel.year_lo ≤ x.Year ∧ x.Year ≤ sel.year_hi)

/-- filtered_tree: same mask as filtered_ivs, over tree_df. -/
def filtered_tree (tree : List TreeRecord) (sel : FilterSelection) : List TreeRecord :=
  tree.filter fun x =>
    decide (x.District ∈ sel.selected_districts ∧
      sel.year_lo ≤ x.Year ∧ x.Year ≤ sel.year_hi)

/-- filtered_veg: District isin selected; then, only when the practice
selectbox is not "All", CSA_Technique == the chosen practice. -/
def filtered_veg (veg : List VegRecord) (sel : FilterSelection) : List VegRecord :=
  let base := veg.filter fun x => decide (x.District ∈ sel.selected_districts)
  if sel.csa_filter = "All" then base
  else base.filter fun x => decide (x.CSA_Technique = sel.csa_filter)

/-- pandas Series.mean: NaN (here: none) on an empty column, else the
arithmetic mean. -/
def meanOpt (xs : List ℚ) : Option ℚ :=
  if xs.isEmpty then none else some (xs.sum / (xs.length : ℚ))

/-- The mean of a column known to be non-empty (used under groupby, where
every group is non-empty). -/
def meanQ (xs : List ℚ) : ℚ := xs.sum / (xs.length : ℚ)

/-- KPI: filtered_ivs['Hectares_Developed'].sum(). -/
def total_hectares (ivs : List IvsRecord) (sel : FilterSelection) : ℤ :=
  ((filtered_ivs ivs sel).map IvsRecord.Hectares_Developed).sum

/-- KPI: filtered_ivs['Farmers_Count'].sum(). -/
def total_farmers (ivs : List IvsRecord) (sel : FilterSelection) : ℤ :=
  ((filtered_ivs ivs sel).map IvsRecord.Farmers_Count).sum

/-- KPI: filtered_ivs['CSA_Adoption_Rate'].mean(). -/
def avg_csa_adoption (ivs : List IvsRecord) (sel : FilterSelection) : Option ℚ :=
  meanOpt ((filtered_ivs ivs sel).map IvsRecord.CSA_Adoption_Rate)

/-- KPI: filtered_tree['Cocoa_Seedlings'].sum() +
filtered_tree['Oil_Palm_Seedlings'].sum(). -/
def total_seedlings (tree : List TreeRecord) (sel : FilterSelection) : ℤ :=
  ((filtered_tree tree sel).map TreeRecord.Cocoa_Seedlings).sum +
    ((filtered_tree tree sel).map TreeRecord.Oil_Palm_Seedlings).sum

/-- The rows of one groupby('District') group. -/
def groupRows (l : List IvsRecord) (d : String) : List IvsRecord :=
  l.filter fun x => decide (x.District = d)

/-- groupby('District')['CSA_Adoption_Rate'].mean(): one (district, mean)
pair per district present in the filtered frame. (pandas lists group keys
in sorted order; the key order is irrelevant to every property stated
below, so first-occurrence order is used.) -/
def district_csa (l : List IvsRecord) : List (String × ℚ) :=
  ((l.map IvsRecord.District).dedup).map fun d =>
    (d, meanQ ((groupRows l d).map IvsRecord.CSA_Adoption_Rate))

/-- The grouped means re-aggregated across all groups, weighting each
group's mean by its row count. -/
def csa_weighted_regroup (l : List IvsRecord) : ℚ :=
  (((district_csa l).map fun p => ((groupRows l p.1).length : ℚ) * p.2).sum) /
    (l.length : ℚ)

/-- One exported CSV row of the IVS frame: the fields in generation
(column) order. -/
def ivs_csv_row (x : IvsRecord) :
    String × ℤ × ℤ × ℤ × ℤ × ℤ × ℚ × ℚ × ℚ × ℚ × ℚ :=
  (x.District, x.Year, x.Hectares_Developed, x.Farmers_Count, x.Women_Farmers,
    x.Youth_Farmers, x.CSA_Adoption_Rate, x.Yield_Traditional, x.Yield_CSA,
    x.Income_Before, x.Income_After)

/-- One exported CSV row of the tree frame. -/
def tree_csv_row (x : TreeRecord) : String × ℤ × ℤ × ℤ × ℚ × ℤ × ℚ :=
  (x.District, x.Year, x.Cocoa_Seedlings, x.Oil_Palm_Seedlings,
    x.Survival_Rate_Year2, x.Farmers_Trained, x.Income_Change)

/-- One exported CSV row of the vegetable frame. -/
def veg_csv_row (x : VegRecord) : String × String × ℤ × ℚ × ℚ × ℚ × ℚ :=
  (x.District, x.CSA_Technique, x.Farmers_Supported, x.Onion_Yield_Increase,
    x.Pepper_Yield_Increase, x.Price_Premium, x.Women_Participation)

/-- filtered_ivs.to_csv: the filtered rows, serialized in row order. -/
def csv_ivs (ivs : List IvsRecord) (sel : FilterSelection) :
    List (String × ℤ × ℤ × ℤ × ℤ × ℤ × ℚ × ℚ × ℚ × ℚ × ℚ) :=
  (filtered_ivs ivs sel).map ivs_csv_row

/-- filtered_tree.to_csv: the filtered rows, serialized in row order. -/
def csv_tree (tree : List TreeRecord) (sel : FilterSelection) :
    List (String × ℤ × ℤ × ℤ × ℚ × ℤ × ℚ) :=
  (filtered_tree tree sel).map tree_csv_row

/-- filtered_veg.to_csv: the filtered rows, serialized in row order. -/
def csv_veg (veg : List VegRecord) (sel : FilterSelection) :
    List (String × String × ℤ × ℚ × ℚ × ℚ × ℚ) :=
  (filtered_veg veg sel).map veg_csv_row

/-- Every numeric field of an IVS row lies in the field's generation
range: [lo, hi) both for randint fields and for uniform fields (so in
particular inside the spec's closed intervals). -/
def IvsRecord.FieldsInRange (x : IvsRecord) : Prop :=
  50 ≤ x.Hectares_Developed ∧ x.Hectares_Developed < 200 ∧
  100 ≤ x.Farmers_Count ∧ x.Farmers_Count < 500 ∧
  40 ≤ x.Women_Farmers ∧ x.Women_Farmers < 200 ∧
  20 ≤ x.Youth_Farmers ∧ x.Youth_Farmers < 100 ∧
  3/10 ≤ x.CSA_Adoption_Rate ∧ x.CSA_Adoption_Rate < 9/10 ∧
  2 ≤ x.Yield_Traditional ∧ x.Yield_Traditional < 7/2 ∧
  7/2 ≤ x.Yield_CSA ∧ x.Yield_CSA < 6 ∧
  500 ≤ x.Income_Before ∧ x.Income_Before < 1200 ∧
  800 ≤ x.Income_After ∧ x.Income_After < 2000

/-- Every numeric field of a tree-crops row lies in its generation range. -/
def TreeRecord.FieldsInRange (x : TreeRecord) : Prop :=
  1000 ≤ x.Cocoa_Seedlings ∧ x.Cocoa_Seedlings < 5000 ∧
  500 ≤ x.Oil_Palm_Seedlings ∧ x.Oil_Palm_Seedlings < 3000 ∧
  7/10 ≤ x.Survival_Rate_Year2 ∧ x.Survival_Rate_Year2 < 19/20 ∧
  50 ≤ x.Farmers_Trained ∧ x.Farmers_Trained < 300 ∧
  200 ≤ x.Income_Change ∧ x.Income_Change < 800

/-- Every numeric field of a vegetable row lies in its generation range. -/
def VegRecord.FieldsInRange (x : VegRecord) : Prop :=
  20 ≤ x.Farmers_Supported ∧ x.Farmers_Supported < 150 ∧
  1/5 ≤ x.Onion_Yield_Increase ∧ x.Onion_Yield_Increase < 4/5 ∧
  3/20 ≤ x.Pepper_Yield_Increase ∧ x.Pepper_Yield_Increase < 3/5 ∧
  1/10 ≤ x.Price_Premium ∧ x.Price_Premium < 2/5 ∧
  3/5 ≤ x.Women_Participation ∧ x.Women_Participation < 9/10

/-- The structural contract of generate_sample_data: one IVS/tree row per
(district, year) and one vegetable row per (district, technique), in
nested iteration order (8 x 5 = 40 rows each), and every numeric field of
every row inside its generation range. -/
def GeneratedTablesSpec (r : Rng) : Prop :=
  ((generate_sample_data r).1.1.map fun x => (x.District, x.Year)) =
      (districts.flatMap fun d => years.map fun y => (d, y)) ∧
  ((generate_sample_data r).1.2.1.map fun x => (x.District, x.Year)) =
      (districts.flatMap fun d => years.map fun y => (d, y)) ∧
  ((generate_sample_data r).1.2.2.map fun x => (x.District, x.CSA_Technique)) =
      (districts.flatMap fun d => csa_techniques.map fun t => (d, t)) ∧
  (generate_sample_data r).1.1.length = 40 ∧
  (generate_sample_data r).1.2.1.length = 40 ∧
  (generate_sample_data r).1.2.2.length = 40 ∧
  (∀ x ∈ (generate_sample_data r).1.1, x.FieldsInRange) ∧
  (∀ x ∈ (generate_sample_data r).1.2.1, x.FieldsInRange) ∧
  (∀ x ∈ (generate_sample_data r).1.2.2, x.FieldsInRange)

/-- What the Aggregator computes for a FilterSelection whose selected
district set is empty: all three filtered frames empty, every sum KPI 0,
the mean KPI the NaN sentinel. -/
def EmptySelectionSpec (ivs : List IvsRecord) (tree : List TreeRecord)
    (veg : List VegRecord) (sel : FilterSelection) : Prop :=
  filtered_ivs ivs sel = [] ∧ filtered_tree tree sel = [] ∧
  filtered_veg veg sel = [] ∧
  total_hectares ivs sel = 0 ∧ total_farmers ivs sel = 0 ∧
  total_seedlings tree sel = 0 ∧ avg_csa_adoption ivs sel = none

/-- Modelled from the spec: the hardened aggregator the spec prescribes
("rejected with an InvalidFilterError" on a malformed year range) — not
present in the source, which filters unguarded; defined only to state the
divergence between the two. -/
def filtered_ivs_checked (ivs : List IvsRecord) (sel : FilterSelection) :
    Except String (List IvsRecord) :=
  if sel.year_hi < sel.year_lo then Except.error "InvalidFilterError"
  else Except.ok (filtered_ivs ivs sel)

/-- The three generated frames as one value (the result st.cache_data
stores). -/
def Tables : Type := List IvsRecord × List TreeRecord × List VegRecord

/-- Modelled from the spec: the st.cache_data decorator on
generate_sample_data (the decorator itself is framework code, not part of
the repository): the first call of a session computes the three frames
and stores them; every later call returns the stored frames without
drawing random values. -/
def cachedGenerate (cache : Option Tables) (r : Rng) : Tables × Option Tables :=
  match cache with
  | some t => (t, some t)
  | none => ((generate_sample_data r).1, some (generate_sample_data r).1)

/-- One dashboard rerun: fetch the (cached) frames, filter them with the
current selection; the frames themselves are never written, only read. -/
def rerun (cache : Option Tables) (r : Rng) (sel : FilterSelection) :
    (List IvsRecord × List TreeRecord × List VegRecord) × Option Tables :=
  ((filtered_ivs (cachedGenerate cache r).1.1 sel,
    filtered_tree (cachedGenerate cache r).1.2.1 sel,
    filtered_veg (cachedGenerate cache r).1.2.2 sel),
   (cachedGenerate cache r).2)

/-- A concrete three-row IVS frame used to instantiate theorems. -/
def sampleIvs : List IvsRecord :=
  [⟨"Bo", 2021, 100, 200, 50, 30, 1/2, 3, 4, 600, 900⟩,
   ⟨"Kenema", 2023, 120, 300, 80, 40, 7/10, 5/2, 9/2, 700, 1000⟩,
   ⟨"Bo", 2022, 80, 150, 60, 20, 3/5, 3, 5, 800, 1200⟩]

/-- A concrete one-row tree frame used to instantiate theorems. -/
def sampleTree : List TreeRecord :=
  [⟨"Bo", 2021, 2000, 1000, 4/5, 100, 500⟩]

/-- A concrete one-row vegetable frame used to instantiate theorems. -/
def sampleVeg : List VegRecord :=
  [⟨"Bo", "Mulching", 50, 1/2, 1/4, 1/5, 3/4⟩]

/-- A selection with no district chosen. -/
def selEmpty : FilterSelection := ⟨[], 2020, 2024, "All", "All"⟩

/-- A selection with an inverted year range (lo = 2024, hi = 2020). -/
def selInverted : FilterSelection := ⟨districts, 2024, 2020, "All", "All"⟩

/-- A selection matching all three sampleIvs rows. -/
def selSample : FilterSelection := ⟨["Bo", "Kenema"], 2020, 2024, "All", "All"⟩

/-- The all-inclusive selection: every district, the full generated year
range, practice "All", any gender focus. -/
def selAll (g : String) : FilterSelection := ⟨districts, 2020, 2024, "All", g⟩

/-- A concrete admissible random stream: every raw draw is 1/2. -/
def rngHalf : Rng := ⟨fun _ => 1/2, 0⟩

/-- A concrete admissible random stream picked so that the very first IVS
row draws Income_Before high (raw draw 9/10) and Income_After at the
bottom of its range (raw draw 0). -/
def rngNeg : Rng := ⟨fun n => if n = 7 then 9/10 else 0, 0⟩

/-- The claim's yield half, as stated: some admissible draw produces a
negative derived yield increase, i.e. a generated IVS row whose Yield_CSA
falls below its Yield_Traditional. -/
def NegativeYieldDeltaPossible : Prop :=
  ∃ r : Rng, r.InRange ∧ ∃ x ∈ (generate_sample_data r).1.1,
    x.Yield_CSA < x.Yield_Traditional

/-- A randint value from an admissible raw draw lies in [lo, hi). -/
theorem randint_bound (lo hi : ℤ) (u : ℚ) (h0 : 0 ≤ u) (h1 : u < 1)
    (hlt : lo < hi) :
    lo ≤ lo + ⌊u * ((hi : ℚ) - (lo : ℚ))⌋ ∧
      lo + ⌊u * ((hi : ℚ) - (lo : ℚ))⌋ < hi := by
  have hpos : (0 : ℚ) < (hi : ℚ) - (lo : ℚ) := by
    have : (lo : ℚ) < (hi : ℚ) := by exact_mod_cast hlt
    linarith
  constructor
  · have h2 : (0 : ℤ) ≤ ⌊u * ((hi : ℚ) - (lo : ℚ))⌋ :=
      Int.floor_nonneg.mpr (mul_nonneg h0 hpos.le)
    omega
  · have h2 : u * ((hi : ℚ) - (lo : ℚ)) < (hi : ℚ) - (lo : ℚ) := by nlinarith
    have h3 : ⌊u * ((hi : ℚ) - (lo : ℚ))⌋ < hi - lo :=
      Int.floor_lt.mpr (by push_cast; linarith)
    omega

/-- A uniform value from an admissible raw draw lies in [lo, hi). -/
theorem uniform_bound (lo hi u : ℚ) (h0 : 0 ≤ u) (h1 : u < 1)
    (hlt : lo < hi) :
    lo ≤ lo + u * (hi - lo) ∧ lo + u * (hi - lo) < hi := by
  constructor
  · nlinarith
  · nlinarith

/-- Drawing an IVS row does not change the raw-draw stream. -/
theorem genIvsRecord_stream (d : String) (y : ℤ) (r : Rng) :
    (genIvsRecord d y r).2.stream = r.stream := rfl

/-- The District column of a drawn IVS row is the loop's district. -/
theorem genIvsRecord_district (d : String) (y : ℤ) (r : Rng) :
    (genIvsRecord d y r).1.District = d := rfl

/-- The Year column of a drawn IVS row is the loop's year. -/
theorem genIvsRecord_year (d : String) (y : ℤ) (r : Rng) :
    (genIvsRecord d y r).1.Year = y := rfl

/-- Every numeric field of a drawn IVS row is inside its range. -/
theorem genIvsRecord_range (d : String) (y : ℤ) (r : Rng) (h : r.InRange) :
    (genIvsRecord d y r).1.FieldsInRange := by
  obtain ⟨s, n⟩ := r
  refine ⟨(randint_bound 50 200 (s n) (h n).1 (h n).2 (by norm_num)).1,
    (randint_bound 50 200 (s n) (h n).1 (h n).2 (by norm_num)).2,
    (randint_bound 100 500 (s (n+1)) (h (n+1)).1 (h (n+1)).2 (by norm_num)).1,
    (randint_bound 100 500 (s (n+1)) (h (n+1)).1 (h (n+1)).2 (by norm_num)).2,
    (randint_bound 40 200 (s (n+2)) (h (n+2)).1 (h (n+2)).2 (by norm_num)).1,
    (randint_bound 40 200 (s (n+2)) (h (n+2)).1 (h (n+2)).2 (by norm_num)).2,
    (randint_bound 20 100 (s (n+3)) (h (n+3)).1 (h (n+3)).2 (by norm_num)).1,
    (randint_bound 20 100 (s (n+3)) (h (n+3)).1 (h (n+3)).2 (by norm_num)).2,
    (uniform_bound (3/10) (9/10) (s (n+4)) (h (n+4)).1 (h (n+4)).2 (by norm_num)).1,
    (uniform_bound (3/10) (9/10) (s (n+4)) (h (n+4)).1 (h (n+4)).2 (by norm_num)).2,
    (uniform_bound 2 (7/2) (s (n+5)) (h (n+5)).1 (h (n+5)).2 (by norm_num)).1,
    (uniform_bound 2 (7/2) (s (n+5)) (h (n+5)).1 (h (n+5)).2 (by norm_num)).2,
    (uniform_bound (7/2) 6 (s (n+6)) (h (n+6)).1 (h (n+6)).2 (by norm_num)).1,
    (uniform_bound (7/2) 6 (s (n+6)) (h (n+6)).1 (h (n+6)).2 (by norm_num)).2,
    (uniform_bound 500 1200 (s (n+7)) (h (n+7)).1 (h (n+7)).2 (by norm_num)).1,
    (uniform_bound 500 1200 (s (n+7)) (h (n+7)).1 (h (n+7)).2 (by norm_num)).2,
    (uniform_bound 800 2000 (s (n+8)) (h (n+8)).1 (h (n+8)).2 (by norm_num)).1,
    (uniform_bound 800 2000 (s (n+8)) (h (n+8)).1 (h (n+8)).2 (by norm_num)).2⟩

/-- Drawing a tree row does not change the raw-draw stream. -/
theorem genTreeRecord_stream (d : String) (y : ℤ) (r : Rng) :
    (genTreeRecord d y r).2.stream = r.stream := rfl

/-- The District column of a drawn tree row is the loop's district. -/
theorem genTreeRecord_district (d : String) (y : ℤ) (r : Rng) :
    (genTreeRecord d y r).1.District = d := rfl

/-- The Year column of a drawn tree row is the loop's year. -/
theorem genTreeRecord_year (d : String) (y : ℤ) (r : Rng) :
    (genTreeRecord d y r).1.Year = y := rfl

/-- Every numeric field of a drawn tree row is inside its range. -/
theorem genTreeRecord_range (d : String) (y : ℤ) (r : Rng) (h : r.InRange) :
    (genTreeRecord d y r).1.FieldsInRange := by
  obtain ⟨s, n⟩ := r
  refine ⟨(randint_bound 1000 5000 (s n) (h n).1 (h n).2 (by norm_num)).1,
    (randint_bound 1000 5000 (s n) (h n).1 (h n).2 (by norm_num)).2,
    (randint_bound 500 3000 (s (n+1)) (h (n+1)).1 (h (n+1)).2 (by norm_num)).1,
    (randint_bound 500 3000 (s (n+1)) (h (n+1)).1 (h (n+1)).2 (by norm_num)).2,
    (uniform_bound (7/10) (19/20) (s (n+2)) (h (n+2)).1 (h (n+2)).2 (by norm_num)).1,
    (uniform_bound (7/10) (19/20) (s (n+2)) (h (n+2)).1 (h (n+2)).2 (by norm_num)).2,
    (randint_bound 50 300 (s (n+3)) (h (n+3)).1 (h (n+3)).2 (by norm_num)).1,
    (randint_bound 50 300 (s (n+3)) (h (n+3)).1 (h (n+3)).2 (by norm_num)).2,
    (uniform_bound 200 800 (s (n+4)) (h (n+4)).1 (h (n+4)).2 (by norm_num)).1,
    (uniform_bound 200 800 (s (n+4)) (h (n+4)).1 (h (n+4)).2 (by norm_num)).2⟩

/-- Drawing a vegetable row does not change the raw-draw stream. -/
theorem genVegRecord_stream (d t : String) (r : Rng) :
    (genVegRecord d t r).2.stream = r.stream := rfl

/-- The District column of a drawn vegetable row is the loop's district. -/
theorem genVegRecord_district (d t : String) (r : Rng) :
    (genVegRecord d t r).1.District = d := rfl

/-- The CSA_Technique column of a drawn vegetable row is the loop's
technique. -/
theorem genVegRecord_technique (d t : String) (r : Rng) :
    (genVegRecord d t r).1.CSA_Technique = t := rfl

/-- Every numeric field of a drawn vegetable row is inside its range. -/
theorem genVegRecord_range (d t : String) (r : Rng) (h : r.InRange) :
    (genVegRecord d t r).1.FieldsInRange := by
  obtain ⟨s, n⟩ := r
  refine ⟨(randint_bound 20 150 (s n) (h n).1 (h n).2 (by norm_num)).1,
    (randint_bound 20 150 (s n) (h n).1 (h n).2 (by norm_num)).2,
    (uniform_bound (1/5) (4/5) (s (n+1)) (h (n+1)).1 (h (n+1)).2 (by norm_num)).1,
    (uniform_bound (1/5) (4/5) (s (n+1)) (h (n+1)).1 (h (n+1)).2 (by norm_num)).2,
    (uniform_bound (3/20) (3/5) (s (n+2)) (h (n+2)).1 (h (n+2)).2 (by norm_num)).1,
    (uniform_bound (3/20) (3/5) (s (n+2)) (h (n+2)).1 (h (n+2)).2 (by norm_num)).2,
    (uniform_bound (1/10) (2/5) (s (n+3)) (h (n+3)).1 (h (n+3)).2 (by norm_num)).1,
    (uniform_bound (1/10) (2/5) (s (n+3)) (h (n+3)).1 (h (n+3)).2 (by norm_num)).2,
    (uniform_bound (3/5) (9/10) (s (n+4)) (h (n+4)).1 (h (n+4)).2 (by norm_num)).1,
    (uniform_bound (3/5) (9/10) (s (n+4)) (h (n+4)).1 (h (n+4)).2 (by norm_num)).2⟩

/-- A stream-equal state inherits admissibility. -/
theorem Rng.InRange.of_stream_eq {r r' : Rng} (h : r.InRange)
    (he : r'.stream = r.stream) : r'.InRange := by
  intro n; rw [he]; exact h n

/-- The inner IVS loop: (District, Year) projections in loop order, and
the stream unchanged. -/
theorem genIvsRows_shape (d : String) (ys : List ℤ) : ∀ r : Rng,
    ((genIvsRows d ys r).1.map fun x => (x.District, x.Year)) =
        (ys.map fun y => (d, y)) ∧
      (genIvsRows d ys r).2.stream = r.stream := by
  induction ys with
  | nil => intro r; exact ⟨rfl, rfl⟩
  | cons y ys ih =>
    intro r
    rcases hrow : genIvsRecord d y r with ⟨row, r'⟩
    rcases hrest : genIvsRows d ys r' with ⟨rest, r''⟩
    have hd : row.District = d := by rw [← genIvsRecord_district d y r, hrow]
    have hy : row.Year = y := by rw [← genIvsRecord_year d y r, hrow]
    have hs : r'.stream = r.stream := by rw [← genIvsRecord_stream d y r, hrow]
    have := ih r'
    rw [hrest] at this
    simp only [genIvsRows, hrow, hrest]
    exact ⟨by simp [hd, hy, this.1], by rw [this.2, hs]⟩

/-- The inner IVS loop: all fields in range. -/
theorem genIvsRows_range (d : String) (ys : List ℤ) : ∀ r : Rng, r.InRange →
    ∀ x ∈ (genIvsRows d ys r).1, x.FieldsInRange := by
  induction ys with
  | nil => intro r _ x hx; simp [genIvsRows] at hx
  | cons y ys ih =>
    intro r h x hx
    rcases hrow : genIvsRecord d y r with ⟨row, r'⟩
    have hs : r'.stream = r.stream := by rw [← genIvsRecord_stream d y r, hrow]
    have h' : r'.InRange := h.of_stream_eq hs
    simp only [genIvsRows, hrow] at hx
    rcases hrest : genIvsRows d ys r' with ⟨rest, r''⟩
    rw [hrest] at hx
    simp only [List.mem_cons] at hx
    rcases hx with hx | hx
    · subst hx
      have := genIvsRecord_range d y r h
      rwa [hrow] at this
    · have := ih r' h' x
      rw [hrest] at this
      exact this hx

/-- The outer IVS loop: (District, Year) projections are the nested
product in order, and the stream unchanged. -/
theorem genIvsTable_shape (ds : List String) : ∀ r : Rng,
    ((genIvsTable ds r).1.map fun x => (x.District, x.Year)) =
        (ds.flatMap fun d => years.map fun y => (d, y)) ∧
      (genIvsTable ds r).2.stream = r.stream := by
  induction ds with
  | nil => intro r; exact ⟨rfl, rfl⟩
  | cons d ds ih =>
    intro r
    rcases hrows : genIvsRows d years r with ⟨rows, r'⟩
    rcases hrest : genIvsTable ds r' with ⟨rest, r''⟩
    have hshape := genIvsRows_shape d years r
    rw [hrows] at hshape
    have := ih r'
    rw [hrest] at this
    simp only [genIvsTable, hrows, hrest]
    refine ⟨?_, by rw [this.2, hshape.2]⟩
    simp [List.map_append, hshape.1, this.1]

/-- The outer IVS loop: all fields in range. -/
theorem genIvsTable_range (ds : List String) : ∀ r : Rng, r.InRange →
    ∀ x ∈ (genIvsTable ds r).1, x.FieldsInRange := by
  induction ds with
  | nil => intro r _ x hx; simp [genIvsTable] at hx
  | cons d ds ih =>
    intro r h x hx
    rcases hrows : genIvsRows d years r with ⟨rows, r'⟩
    rcases hrest : genIvsTable ds r' with ⟨rest, r''⟩
    have hs : r'.stream = r.stream := by
      rw [← (genIvsRows_shape d years r).2, hrows]
    have h' : r'.InRange := h.of_stream_eq hs
    simp only [genIvsTable, hrows, hrest, List.mem_append] at hx
    rcases hx with hx | hx
    · have := genIvsRows_range d years r h x
      rw [hrows] at this
      exact this hx
    · have := ih r' h' x
      rw [hrest] at this
      exact this hx

/-- The inner tree loop: (District, Year) projections in loop order, and
the stream unchanged. -/
theorem genTreeRows_shape (d : String) (ys : List ℤ) : ∀ r : Rng,
    ((genTreeRows d ys r).1.map fun x => (x.District, x.Year)) =
        (ys.map fun y => (d, y)) ∧
      (genTreeRows d ys r).2.stream = r.stream := by
  induction ys with
  | nil => intro r; exact ⟨rfl, rfl⟩
  | cons y ys ih =>
    intro r
    rcases hrow : genTreeRecord d y r with ⟨row, r'⟩
    rcases hrest : genTreeRows d ys r' with ⟨rest, r''⟩
    have hd : row.District = d := by rw [← genTreeRecord_district d y r, hrow]
    have hy : row.Year = y := by rw [← genTreeRecord_year d y r, hrow]
    have hs : r'.stream = r.stream := by rw [← genTreeRecord_stream d y r, hrow]
    have := ih r'
    rw [hrest] at this
    simp only [genTreeRows, hrow, hrest]
    exact ⟨by simp [hd, hy, this.1], by rw [this.2, hs]⟩

/-- The inner tree loop: all fields in range. -/
theorem genTreeRows_range (d : String) (ys : List ℤ) : ∀ r : Rng, r.InRange →
    ∀ x ∈ (genTreeRows d ys r).1, x.FieldsInRange := by
  induction ys with
  | nil => intro r _ x hx; simp [genTreeRows] at hx
  | cons y ys ih =>
    intro r h x hx
    rcases hrow : genTreeRecord d y r with ⟨row, r'⟩
    have hs : r'.stream = r.stream := by rw [← genTreeRecord_stream d y r, hrow]
    have h' : r'.InRange := h.of_stream_eq hs
    simp only [genTreeRows, hrow] at hx
    rcases hrest : genTreeRows d ys r' with ⟨rest, r''⟩
    rw [hrest] at hx
    simp only [List.mem_cons] at hx
    rcases hx with hx | hx
    · subst hx
      have := genTreeRecord_range d y r h
      rwa [hrow] at this
    · have := ih r' h' x
      rw [hrest] at this
      exact this hx

/-- The outer tree loop: (District, Year) projections are the nested
product in order, and the stream unchanged. -/
theorem genTreeTable_shape (ds : List String) : ∀ r : Rng,
    ((genTreeTable ds r).1.map fun x => (x.District, x.Year)) =
        (ds.flatMap fun d => years.map fun y => (d, y)) ∧
      (genTreeTable ds r).2.stream = r.stream := by
  induction ds with
  | nil => intro r; exact ⟨rfl, rfl⟩
  | cons d ds ih =>
    intro r
    rcases hrows : genTreeRows d years r with ⟨rows, r'⟩
    rcases hrest : genTreeTable ds r' with ⟨rest, r''⟩
    have hshape := genTreeRows_shape d years r
    rw [hrows] at hshape
    have := ih r'
    rw [hrest] at this
    simp only [genTreeTable, hrows, hrest]
    refine ⟨?_, by rw [this.2, hshape.2]⟩
    simp [List.map_append, hshape.1, this.1]

/-- The outer tree loop: all fields in range. -/
theorem genTreeTable_range (ds : List String) : ∀ r : Rng, r.InRange →
    ∀ x ∈ (genTreeTable ds r).1, x.FieldsInRange := by
  induction ds with
  | nil => intro r _ x hx; simp [genTreeTable] at hx
  | cons d ds ih =>
    intro r h x hx
    rcases hrows : genTreeRows d years r with ⟨rows, r'⟩
    rcases hrest : genTreeTable ds r' with ⟨rest, r''⟩
    have hs : r'.stream = r.stream := by
      rw [← (genTreeRows_shape d years r).2, hrows]
    have h' : r'.InRange := h.of_stream_eq hs
    simp only [genTreeTable, hrows, hrest, List.mem_append] at hx
    rcases hx with hx | hx
    · have := genTreeRows_range d years r h x
      rw [hrows] at this
      exact this hx
    · have := ih r' h' x
      rw [hrest] at this
      exact this hx

/-- The inner vegetable loop: (District, CSA_Technique) projections in
loop order, and the stream unchanged. -/
theorem genVegRows_shape (d : String) (ts : List String) : ∀ r : Rng,
    ((genVegRows d ts r).1.map fun x => (x.District, x.CSA_Technique)) =
        (ts.map fun t => (d, t)) ∧
      (genVegRows d ts r).2.stream = r.stream := by
  induction ts with
  | nil => intro r; exact ⟨rfl, rfl⟩
  | cons t ts ih =>
    intro r
    rcases hrow : genVegRecord d t r with ⟨row, r'⟩
    rcases hrest : genVegRows d ts r' with ⟨rest, r''⟩
    have hd : row.District = d := by rw [← genVegRecord_district d t r, hrow]
    have ht : row.CSA_Technique = t := by
      rw [← genVegRecord_technique d t r, hrow]
    have hs : r'.stream = r.stream := by rw [← genVegRecord_stream d t r, hrow]
    have := ih r'
    rw [hrest] at this
    simp only [genVegRows, hrow, hrest]
    exact ⟨by simp [hd, ht, this.1], by rw [this.2, hs]⟩

/-- The inner vegetable loop: all fields in range. -/
theorem genVegRows_range (d : String) (ts : List String) : ∀ r : Rng,
    r.InRange → ∀ x ∈ (genVegRows d ts r).1, x.FieldsInRange := by
  induction ts with
  | nil => intro r _ x hx; simp [genVegRows] at hx
  | cons t ts ih =>
    intro r h x hx
    rcases hrow : genVegRecord d t r with ⟨row, r'⟩
    have hs : r'.stream = r.stream := by rw [← genVegRecord_stream d t r, hrow]
    have h' : r'.InRange := h.of_stream_eq hs
    simp only [genVegRows, hrow] at hx
    rcases hrest : genVegRows d ts r' with ⟨rest, r''⟩
    rw [hrest] at hx
    simp only [List.mem_cons] at hx
    rcases hx with hx | hx
    · subst hx
      have := genVegRecord_range d t r h
      rwa [hrow] at this
    · have := ih r' h' x
      rw [hrest] at this
      exact this hx

/-- The outer vegetable loop: (District, CSA_Technique) projections are
the nested product in order, and the stream unchanged. -/
theorem genVegTable_shape (ds : List String) : ∀ r : Rng,
    ((genVegTable ds r).1.map fun x => (x.District, x.CSA_Technique)) =
        (ds.flatMap fun d => csa_techniques.map fun t => (d, t)) ∧
      (genVegTable ds r).2.stream = r.stream := by
  induction ds with
  | nil => intro r; exact ⟨rfl, rfl⟩
  | cons d ds ih =>
    intro r
    rcases hrows : genVegRows d csa_techniques r with ⟨rows, r'⟩
    rcases hrest : genVegTable ds r' with ⟨rest, r''⟩
    have hshape := genVegRows_shape d csa_techniques r
    rw [hrows] at hshape
    have := ih r'
    rw [hrest] at this
    simp only [genVegTable, hrows, hrest]
    refine ⟨?_, by rw [this.2, hshape.2]⟩
    simp [List.map_append, hshape.1, this.1]

/-- The outer vegetable loop: all fields in range. -/
theorem genVegTable_range (ds : List String) : ∀ r : Rng, r.InRange →
    ∀ x ∈ (genVegTable ds r).1, x.FieldsInRange := by
  induction ds with
  | nil => intro r _ x hx; simp [genVegTable] at hx
  | cons d ds ih =>
    intro r h x hx
    rcases hrows : genVegRows d csa_techniques r with ⟨rows, r'⟩
    rcases hrest : genVegTable ds r' with ⟨rest, r''⟩
    have hs : r'.stream = r.stream := by
      rw [← (genVegRows_shape d csa_techniques r).2, hrows]
    have h' : r'.InRange := h.of_stream_eq hs
    simp only [genVegTable, hrows, hrest, List.mem_append] at hx
    rcases hx with hx | hx
    · have := genVegRows_range d csa_techniques r h x
      rw [hrows] at this
      exact this hx
    · have := ih r' h' x
      rw [hrest] at this
      exact this hx

/-- C1: the three filtered frames are exactly the generated rows passing
the membership test — for the IVS and tree frames, District in the
selected set and Year in the inclusive range [year_lo, year_hi]; for the
vegetable frame, District in the selected set and, when a single CSA
technique (not "All") is chosen, CSA_Technique equal to it; the year
range never constrains the vegetable frame. -/
theorem filtered_mem_iff (ivs : List IvsRecord) (tree : List TreeRecord)
    (veg : List VegRecord) (sel : FilterSelection) :
    (∀ x, x ∈ filtered_ivs ivs sel ↔
      x ∈ ivs ∧ x.District ∈ sel.selected_districts ∧
        sel.year_lo ≤ x.Year ∧ x.Year ≤ sel.year_hi) ∧
    (∀ x, x ∈ filtered_tree tree sel ↔
      x ∈ tree ∧ x.District ∈ sel.selected_districts ∧
        sel.year_lo ≤ x.Year ∧ x.Year ≤ sel.year_hi) ∧
    (∀ x, x ∈ filtered_veg veg sel ↔
      x ∈ veg ∧ x.District ∈ sel.selected_districts ∧
        (sel.csa_filter ≠ "All" → x.CSA_Technique = sel.csa_filter)) := by
  refine ⟨?_, ?_, ?_⟩
  · intro x
    simp [filtered_ivs, List.mem_filter, and_assoc]
  · intro x
    simp [filtered_tree, List.mem_filter, and_assoc]
  · intro x
    by_cases hAll : sel.csa_filter = "All"
    · simp [filtered_veg, hAll, List.mem_filter]
    · simp only [filtered_veg, if_neg hAll, List.mem_filter, decide_eq_true_eq]
      constructor
      · rintro ⟨⟨hv, hd⟩, ht⟩
        exact ⟨hv, hd, fun _ => ht⟩
      · rintro ⟨hv, hd, ht⟩
        exact ⟨⟨hv, hd⟩, ht hAll⟩

/-- C2: generate_sample_data produces exactly one IVS and one tree row
per (district, year) — 8 districts times years 2020..2024 — and one
vegetable row per (district, technique) — 8 districts times 5 techniques
— in nested iteration order, and, for an admissible raw-draw stream,
every numeric field of every row lies inside its field-specific
generation range ([50, 200) for Hectares_Developed, [0.3, 0.9) subset of
[0.3, 0.9] for CSA_Adoption_Rate, [0.7, 0.95) for Survival_Rate_Year2,
and so on). -/
theorem generator_rows_and_ranges (r : Rng) (h : r.InRange) :
    GeneratedTablesSpec r := by
  have e1 : (generate_sample_data r).1.1 = (genIvsTable districts r).1 := rfl
  have e2 : (generate_sample_data r).1.2.1 =
      (genTreeTable districts (genIvsTable districts r).2).1 := rfl
  have e3 : (generate_sample_data r).1.2.2 =
      (genVegTable districts
        (genTreeTable districts (genIvsTable districts r).2).2).1 := rfl
  have hr1 : (genIvsTable districts r).2.InRange :=
    h.of_stream_eq (genIvsTable_shape districts r).2
  have hr2 : (genTreeTable districts (genIvsTable districts r).2).2.InRange :=
    hr1.of_stream_eq (genTreeTable_shape districts _).2
  refine ⟨?_, ?_, ?_, ?_, ?_, ?_, ?_, ?_, ?_⟩
  · rw [e1]; exact (genIvsTable_shape districts r).1
  · rw [e2]; exact (genTreeTable_shape districts _).1
  · rw [e3]; exact (genVegTable_shape districts _).1
  · rw [e1]
    have h2 := congrArg List.length (genIvsTable_shape districts r).1
    rw [List.length_map] at h2
    rw [h2]; rfl
  · rw [e2]
    have h2 := congrArg List.length (genTreeTable_shape districts
      (genIvsTable districts r).2).1
    rw [List.length_map] at h2
    rw [h2]; rfl
  · rw [e3]
    have h2 := congrArg List.length (genVegTable_shape districts
      (genTreeTable districts (genIvsTable districts r).2).2).1
    rw [List.length_map] at h2
    rw [h2]; rfl
  · rw [e1]; exact genIvsTable_range districts r h
  · rw [e2]; exact genTreeTable_range districts _ hr1
  · rw [e3]; exact genVegTable_range districts _ hr2

/-- Witness for C2 at the concrete admissible stream rngHalf. -/
theorem generator_rows_and_ranges_witness : GeneratedTablesSpec rngHalf :=
  generator_rows_and_ranges rngHalf
    (fun _ => ⟨by norm_num [rngHalf], by norm_num [rngHalf]⟩)

/-- C3: the four scalar KPIs are computed from the filtered frames as:
total hectares = sum of Hectares_Developed over the filtered IVS frame;
farmers reached = sum of Farmers_Count over the filtered IVS frame; CSA
adoption rate = mean of CSA_Adoption_Rate over the filtered IVS frame
(NaN sentinel on an empty frame); tree seedlings distributed = sum of
Cocoa_Seedlings plus sum of Oil_Palm_Seedlings over the filtered tree
frame. -/
theorem kpi_formulas (ivs : List IvsRecord) (tree : List TreeRecord)
    (sel : FilterSelection) :
    total_hectares ivs sel =
      (((ivs.filter fun x => decide (x.District ∈ sel.selected_districts ∧
        sel.year_lo ≤ x.Year ∧ x.Year ≤ sel.year_hi)).map
          IvsRecord.Hectares_Developed).sum) ∧
    total_farmers ivs sel =
      (((ivs.filter fun x => decide (x.District ∈ sel.selected_districts ∧
        sel.year_lo ≤ x.Year ∧ x.Year ≤ sel.year_hi)).map
          IvsRecord.Farmers_Count).sum) ∧
    avg_csa_adoption ivs sel =
      (if filtered_ivs ivs sel = [] then none else
        some (((filtered_ivs ivs sel).map IvsRecord.CSA_Adoption_Rate).sum /
          ((filtered_ivs ivs sel).length : ℚ))) ∧
    total_seedlings tree sel =
      (((tree.filter fun x => decide (x.District ∈ sel.selected_districts ∧
        sel.year_lo ≤ x.Year ∧ x.Year ≤ sel.year_hi)).map
          TreeRecord.Cocoa_Seedlings).sum) +
      (((tree.filter fun x => decide (x.District ∈ sel.selected_districts ∧
        sel.year_lo ≤ x.Year ∧ x.Year ≤ sel.year_hi)).map
          TreeRecord.Oil_Palm_Seedlings).sum) := by
  refine ⟨rfl, rfl, ?_, rfl⟩
  by_cases h : filtered_ivs ivs sel = []
  · simp [avg_csa_adoption, meanOpt, h]
  · simp [avg_csa_adoption, meanOpt, h, List.isEmpty_iff, List.length_map]

/-- C4: an empty selected-district set yields empty filtered frames (no
error), sum KPIs 0 and the NaN sentinel for the mean KPI. -/
theorem empty_selection (ivs : List IvsRecord) (tree : List TreeRecord)
    (veg : List VegRecord) (sel : FilterSelection)
    (h : sel.selected_districts = []) :
    EmptySelectionSpec ivs tree veg sel := by
  have hivs : filtered_ivs ivs sel = [] := by
    apply List.filter_eq_nil_iff.mpr
    intro x hx
    simp [h]
  have htree : filtered_tree tree sel = [] := by
    apply List.filter_eq_nil_iff.mpr
    intro x hx
    simp [h]
  have hbase : (veg.filter fun x =>
      decide (x.District ∈ sel.selected_districts)) = [] := by
    apply List.filter_eq_nil_iff.mpr
    intro x hx
    simp [h]
  have hveg : filtered_veg veg sel = [] := by
    by_cases hc : sel.csa_filter = "All" <;> simp [filtered_veg, hbase, hc]
  exact ⟨hivs, htree, hveg,
    by simp [total_hectares, hivs],
    by simp [total_farmers, hivs],
    by simp [total_seedlings, htree],
    by simp [avg_csa_adoption, meanOpt, hivs]⟩

/-- Witness for C4 at concrete frames and the concrete empty selection. -/
theorem empty_selection_witness :
    EmptySelectionSpec sampleIvs sampleTree sampleVeg selEmpty :=
  empty_selection sampleIvs sampleTree sampleVeg selEmpty rfl

/-- C5 counterexample: on a concrete non-empty frame, the inverted
selection (year_lo = 2024, year_hi = 2020) is not rejected — the source
has no InvalidFilterError — and silently produces the empty frame, the
exact behavior the claim denies; the spec's hardened aggregator
(filtered_ivs_checked) rejects the same input. -/
theorem inverted_range_not_rejected :
    filtered_ivs sampleIvs selInverted = [] ∧ sampleIvs ≠ [] ∧
      filtered_ivs_checked sampleIvs selInverted =
        Except.error "InvalidFilterError" := by
  refine ⟨by decide, by simp [sampleIvs], by rfl⟩

/-- C5 amended: for every selection with an inverted year range
(year_hi < year_lo) the source aggregator rejects nothing: it silently
returns empty IVS and tree frames. -/
theorem inverted_range_silently_empty (ivs : List IvsRecord)
    (tree : List TreeRecord) (sel : FilterSelection)
    (h : sel.year_hi < sel.year_lo) :
    filtered_ivs ivs sel = [] ∧ filtered_tree tree sel = [] := by
  constructor
  · apply List.filter_eq_nil_iff.mpr
    intro x hx
    simp only [decide_eq_true_eq]
    rintro ⟨-, h1, h2⟩
    omega
  · apply List.filter_eq_nil_iff.mpr
    intro x hx
    simp only [decide_eq_true_eq]
    rintro ⟨-, h1, h2⟩
    omega

/-- Witness for the amended C5 at the concrete inverted selection. -/
theorem inverted_range_silently_empty_witness :
    filtered_ivs sampleIvs selInverted = [] ∧
      filtered_tree sampleTree selInverted = [] :=
  inverted_range_silently_empty sampleIvs sampleTree selInverted (by decide)

/-- Every generated IVS row's District is one of the eight districts and
its Year lies in 2020..2024 (for any stream, admissible or not). -/
theorem genIvs_mem_bounds (r : Rng) : ∀ x ∈ (generate_sample_data r).1.1,
    x.District ∈ districts ∧ 2020 ≤ x.Year ∧ x.Year ≤ 2024 := by
  intro x hx
  have e1 : (generate_sample_data r).1.1 = (genIvsTable districts r).1 := rfl
  rw [e1] at hx
  have hm : (x.District, x.Year) ∈
      ((genIvsTable districts r).1.map fun x => (x.District, x.Year)) :=
    List.mem_map_of_mem _ hx
  rw [(genIvsTable_shape districts r).1, List.mem_flatMap] at hm
  obtain ⟨d, hd, hm⟩ := hm
  rw [List.mem_map] at hm
  obtain ⟨y, hy, hm⟩ := hm
  rw [Prod.mk.injEq] at hm
  obtain ⟨h1, h2⟩ := hm
  refine ⟨h1 ▸ hd, ?_, ?_⟩ <;> (simp [years] at hy; omega)

/-- Every generated tree row's District is one of the eight districts and
its Year lies in 2020..2024. -/
theorem genTree_mem_bounds (r : Rng) : ∀ x ∈ (generate_sample_data r).1.2.1,
    x.District ∈ districts ∧ 2020 ≤ x.Year ∧ x.Year ≤ 2024 := by
  intro x hx
  have e2 : (generate_sample_data r).1.2.1 =
      (genTreeTable districts (genIvsTable districts r).2).1 := rfl
  rw [e2] at hx
  have hm : (x.District, x.Year) ∈
      ((genTreeTable districts (genIvsTable districts r).2).1.map
        fun x => (x.District, x.Year)) :=
    List.mem_map_of_mem _ hx
  rw [(genTreeTable_shape districts _).1, List.mem_flatMap] at hm
  obtain ⟨d, hd, hm⟩ := hm
  rw [List.mem_map] at hm
  obtain ⟨y, hy, hm⟩ := hm
  rw [Prod.mk.injEq] at hm
  obtain ⟨h1, h2⟩ := hm
  refine ⟨h1 ▸ hd, ?_, ?_⟩ <;> (simp [years] at hy; omega)

/-- Every generated vegetable row's District is one of the eight
districts. -/
theorem genVeg_mem_bounds (r : Rng) : ∀ x ∈ (generate_sample_data r).1.2.2,
    x.District ∈ districts := by
  intro x hx
  have e3 : (generate_sample_data r).1.2.2 =
      (genVegTable districts
        (genTreeTable districts (genIvsTable districts r).2).2).1 := rfl
  rw [e3] at hx
  have hm : (x.District, x.CSA_Technique) ∈
      ((genVegTable districts
        (genTreeTable districts (genIvsTable districts r).2).2).1.map
          fun x => (x.District, x.CSA_Technique)) :=
    List.mem_map_of_mem _ hx
  rw [(genVegTable_shape districts _).1, List.mem_flatMap] at hm
  obtain ⟨d, hd, hm⟩ := hm
  rw [List.mem_map] at hm
  obtain ⟨t, ht, hm⟩ := hm
  rw [Prod.mk.injEq] at hm
  exact hm.1 ▸ hd

/-- C6: filtering with the all-inclusive selection (all districts, years
2020..2024, practice "All") is a no-op — each filtered frame equals the
full generated frame — and every sum KPI equals the sum of its field over
the full generated frame. -/
theorem all_inclusive_noop (r : Rng) (g : String) :
    filtered_ivs (generate_sample_data r).1.1 (selAll g) =
        (generate_sample_data r).1.1 ∧
    filtered_tree (generate_sample_data r).1.2.1 (selAll g) =
        (generate_sample_data r).1.2.1 ∧
    filtered_veg (generate_sample_data r).1.2.2 (selAll g) =
        (generate_sample_data r).1.2.2 ∧
    total_hectares (generate_sample_data r).1.1 (selAll g) =
        ((generate_sample_data r).1.1.map IvsRecord.Hectares_Developed).sum ∧
    total_farmers (generate_sample_data r).1.1 (selAll g) =
        ((generate_sample_data r).1.1.map IvsRecord.Farmers_Count).sum ∧
    total_seedlings (generate_sample_data r).1.2.1 (selAll g) =
        ((generate_sample_data r).1.2.1.map TreeRecord.Cocoa_Seedlings).sum +
        ((generate_sample_data r).1.2.1.map TreeRecord.Oil_Palm_Seedlings).sum := by
  have hivs : filtered_ivs (generate_sample_data r).1.1 (selAll g) =
      (generate_sample_data r).1.1 := by
    apply List.filter_eq_self.mpr
    intro x hx
    obtain ⟨hd, h1, h2⟩ := genIvs_mem_bounds r x hx
    simp [selAll]
    exact ⟨hd, h1, h2⟩
  have htree : filtered_tree (generate_sample_data r).1.2.1 (selAll g) =
      (generate_sample_data r).1.2.1 := by
    apply List.filter_eq_self.mpr
    intro x hx
    obtain ⟨hd, h1, h2⟩ := genTree_mem_bounds r x hx
    simp [selAll]
    exact ⟨hd, h1, h2⟩
  have hveg : filtered_veg (generate_sample_data r).1.2.2 (selAll g) =
      (generate_sample_data r).1.2.2 := by
    have hAll : (selAll g).csa_filter = "All" := rfl
    rw [filtered_veg, if_pos hAll]
    apply List.filter_eq_self.mpr
    intro x hx
    have hd := genVeg_mem_bounds r x hx
    simp [selAll]
    exact hd
  refine ⟨hivs, htree, hveg, ?_, ?_, ?_⟩
  · rw [total_hectares, hivs]
  · rw [total_farmers, hivs]
  · rw [total_seedlings, htree]

/-- Splitting a projected sum along a boolean mask. -/
theorem sum_map_filter_split (l : List IvsRecord) (p : IvsRecord → Bool)
    (f : IvsRecord → ℚ) :
    ((l.filter p).map f).sum + ((l.filter fun a => !p a).map f).sum =
      (l.map f).sum := by
  induction l with
  | nil => simp
  | cons a l ih =>
    by_cases h : p a = true
    · simp [List.filter_cons, h, List.sum_cons]
      linarith
    · simp [List.filter_cons, h, List.sum_cons]
      linarith

/-- Summing the per-group sums over a duplicate-free key list covering
every row reproduces the whole projected sum. -/
theorem sum_over_groups (f : IvsRecord → ℚ) : ∀ ks : List String, ks.Nodup →
    ∀ l : List IvsRecord, (∀ x ∈ l, x.District ∈ ks) →
      (ks.map fun d => ((groupRows l d).map f).sum).sum = (l.map f).sum := by
  intro ks
  induction ks with
  | nil =>
    intro _ l hcov
    cases l with
    | nil => rfl
    | cons a l => exact absurd (hcov a (by simp)) (by simp)
  | cons k ks ih =>
    intro hnd l hcov
    have hk : k ∉ ks := (List.nodup_cons.mp hnd).1
    have hnd2 : ks.Nodup := (List.nodup_cons.mp hnd).2
    have hcov2 : ∀ x ∈ l.filter (fun x => !decide (x.District = k)),
        x.District ∈ ks := by
      intro x hx
      rw [List.mem_filter] at hx
      have hx2 : x.District ≠ k := by simpa using hx.2
      have := hcov x hx.1
      simp only [List.mem_cons] at this
      exact this.resolve_left hx2
    have hgroups : ∀ d ∈ ks, groupRows l d =
        groupRows (l.filter fun x => !decide (x.District = k)) d := by
      intro d hd
      have hdk : d ≠ k := fun hdk => hk (hdk ▸ hd)
      rw [groupRows, groupRows, List.filter_filter]
      apply List.filter_congr
      intro x hx
      by_cases hxd : x.District = d
      · simp [hxd, hdk]
      · simp [hxd]
    have hmap : (ks.map fun d => ((groupRows l d).map f).sum) =
        (ks.map fun d =>
          ((groupRows (l.filter fun x => !decide (x.District = k)) d).map
            f).sum) := by
      apply List.map_congr_left
      intro d hd
      rw [hgroups d hd]
    rw [List.map_cons, List.sum_cons, hmap,
      ih hnd2 (l.filter fun x => !decide (x.District = k)) hcov2]
    have := sum_map_filter_split l (fun x => decide (x.District = k)) f
    rw [← this, groupRows]

/-- For any non-empty frame, re-aggregating the per-district means with
row-count weights reproduces the overall mean. -/
theorem weighted_regroup_eq_mean (l : List IvsRecord) :
    csa_weighted_regroup l = meanQ (l.map IvsRecord.CSA_Adoption_Rate) := by
  have hterm : ∀ d ∈ (l.map IvsRecord.District).dedup,
      ((groupRows l d).length : ℚ) *
          meanQ ((groupRows l d).map IvsRecord.CSA_Adoption_Rate) =
        ((groupRows l d).map IvsRecord.CSA_Adoption_Rate).sum := by
    intro d hd
    rw [List.mem_dedup, List.mem_map] at hd
    obtain ⟨x, hx, rfl⟩ := hd
    have hmem : x ∈ groupRows l x.District := by
      rw [groupRows, List.mem_filter]
      exact ⟨hx, by simp⟩
    have hpos : 0 < (groupRows l x.District).length :=
      List.length_pos_of_mem hmem
    have hne : ((groupRows l x.District).length : ℚ) ≠ 0 := by
      exact_mod_cast Nat.pos_iff_ne_zero.mp hpos
    rw [meanQ, List.length_map]
    exact mul_div_cancel₀ _ hne
  have hcov : ∀ x ∈ l, x.District ∈ (l.map IvsRecord.District).dedup := by
    intro x hx
    rw [List.mem_dedup]
    exact List.mem_map_of_mem _ hx
  have hsum := sum_over_groups IvsRecord.CSA_Adoption_Rate
    (l.map IvsRecord.District).dedup (List.nodup_dedup _) l hcov
  rw [csa_weighted_regroup, district_csa, List.map_map]
  have hnum : (((l.map IvsRecord.District).dedup).map
      ((fun p : String × ℚ => ((groupRows l p.1).length : ℚ) * p.2) ∘
        fun d => (d, meanQ ((groupRows l d).map IvsRecord.CSA_Adoption_Rate)))).sum =
      (l.map IvsRecord.CSA_Adoption_Rate).sum := by
    rw [← hsum]
    apply congrArg List.sum
    apply List.map_congr_left
    intro d hd
    exact hterm d hd
  rw [hnum, meanQ, List.length_map]

/-- C7: for every non-empty filtered IVS frame, the per-district grouped
means of CSA_Adoption_Rate, re-aggregated across all groups weighted by
each group's row count, equal the overall ungrouped mean over the same
filtered frame (exactly, over the rationals). -/
theorem grouped_means_regroup (ivs : List IvsRecord) (sel : FilterSelection)
    (_h : filtered_ivs ivs sel ≠ []) :
    csa_weighted_regroup (filtered_ivs ivs sel) =
      meanQ ((filtered_ivs ivs sel).map IvsRecord.CSA_Adoption_Rate) :=
  weighted_regroup_eq_mean _

/-- Witness for C7 at a concrete frame and selection. -/
theorem grouped_means_regroup_witness :
    csa_weighted_regroup (filtered_ivs sampleIvs selSample) =
      meanQ ((filtered_ivs sampleIvs selSample).map
        IvsRecord.CSA_Adoption_Rate) :=
  grouped_means_regroup sampleIvs selSample (by decide)

/-- C8: once the first call of a session has generated the three frames,
st.cache_data returns the stored frames on every later call — even under
a different random stream, so filter changes never re-roll values — and a
dashboard rerun (filtering with the current selection) only reads the
cached frames and leaves them unchanged. -/
theorem tables_stable_per_session (c : Option Tables) (r r' : Rng)
    (sel : FilterSelection) :
    (cachedGenerate (cachedGenerate c r).2 r').1 = (cachedGenerate c r).1 ∧
    (cachedGenerate (cachedGenerate c r).2 r').2 = (cachedGenerate c r).2 ∧
    (rerun c r sel).2 = (cachedGenerate c r).2 := by
  rcases c with _ | t <;> simp [cachedGenerate, rerun]

/-- Every generated IVS row of an admissible stream has Yield_CSA
strictly above Yield_Traditional: the generation ranges [2.0, 3.5) and
[3.5, 6.0) are disjoint. -/
theorem yield_delta_pos_aux (r : Rng) (h : r.InRange) :
    ∀ x ∈ (generate_sample_data r).1.1,
      x.Yield_Traditional < x.Yield_CSA := by
  intro x hx
  have e1 : (generate_sample_data r).1.1 = (genIvsTable districts r).1 := rfl
  rw [e1] at hx
  have hrange := genIvsTable_range districts r h x hx
  obtain ⟨-, -, -, -, -, -, -, -, -, -, -, hyt, hyc, -, -, -, -, -⟩ := hrange
  linarith

/-- C9 counterexample: the claim's "negative derived yield increase"
half is false — no admissible draw makes the yield increase negative,
because every generated IVS row has Yield_CSA strictly above
Yield_Traditional. -/
theorem yield_increase_never_negative : NegativeYieldDeltaPossible = False := by
  apply eq_false
  rintro ⟨r, hr, x, hx, hlt⟩
  exact absurd hlt (not_lt.mpr (le_of_lt (yield_delta_pos_aux r hr x hx)))

/-- C9 amended: Income_After is drawn independently of Income_Before and
their ranges [500, 1200) and [800, 2000) overlap, so an admissible draw
can make the income delta negative and the generator does not clamp it;
the yield pair, although likewise drawn independently, can never produce
a negative increase because its two ranges are disjoint. -/
theorem income_delta_negative_unclamped :
    (rngNeg.InRange ∧
      ∃ x ∈ (generate_sample_data rngNeg).1.1,
        x.Income_After < x.Income_Before) ∧
    (∀ r : Rng, r.InRange → ∀ x ∈ (generate_sample_data r).1.1,
      x.Yield_Traditional < x.Yield_CSA) := by
  constructor
  · constructor
    · intro n
      constructor <;> (simp only [rngNeg]; split <;> norm_num)
    · refine ⟨(genIvsRecord "Western Area" 2020 rngNeg).1,
        List.mem_cons_self _ _, ?_⟩
      have e1 : (genIvsRecord "Western Area" 2020 rngNeg).1.Income_Before =
          500 + rngNeg.stream 7 * (1200 - 500) := rfl
      have e2 : (genIvsRecord "Western Area" 2020 rngNeg).1.Income_After =
          800 + rngNeg.stream 8 * (2000 - 800) := rfl
      rw [e1, e2]
      norm_num [rngNeg]
  · exact fun r h => yield_delta_pos_aux r h

/-- C10: the gender/youth selectbox is inert — changing only gender_focus
changes no filtered frame, no KPI, no grouped aggregate and no CSV
export. -/
theorem gender_focus_inert (ivs : List IvsRecord) (tree : List TreeRecord)
    (veg : List VegRecord) (sel : FilterSelection) (g : String) :
    filtered_ivs ivs { sel with gender_focus := g } = filtered_ivs ivs sel ∧
    filtered_tree tree { sel with gender_focus := g } =
      filtered_tree tree sel ∧
    filtered_veg veg { sel with gender_focus := g } = filtered_veg veg sel ∧
    total_hectares ivs { sel with gender_focus := g } =
      total_hectares ivs sel ∧
    total_farmers ivs { sel with gender_focus := g } = total_farmers ivs sel ∧
    avg_csa_adoption ivs { sel with gender_focus := g } =
      avg_csa_adoption ivs sel ∧
    total_seedlings tree { sel with gender_focus := g } =
      total_seedlings tree sel ∧
    district_csa (filtered_ivs ivs { sel with gender_focus := g }) =
      district_csa (filtered_ivs ivs sel) ∧
    csa_weighted_regroup (filtered_ivs ivs { sel with gender_focus := g }) =
      csa_weighted_regroup (filtered_ivs ivs sel) ∧
    csv_ivs ivs { sel with gender_focus := g } = csv_ivs ivs sel ∧
    csv_tree tree { sel with gender_focus := g } = csv_tree tree sel ∧
    csv_veg veg { sel with gender_focus := g } = csv_veg veg sel := by
  cases sel
  exact ⟨rfl, rfl, rfl, rfl, rfl, rfl, rfl, rfl, rfl, rfl, rfl, rfl⟩

end AVDP
